import Mathlib

/-!
Shallow embedding of `src/main.rs` of `archinstaller_rust`: an interactive
terminal menu (main menu + disk picker) driven by keyboard events.

Modelling conventions:
  - Keyboard events are the constructors of `KeyCode` actually dispatched on
    by the source (`Up`, `Down`, `Enter`, `Esc`, any other key), plus a
    non-key terminal event (`Event` values other than `Event::Key`).
  - `io::Error` values are modelled by `IOErr` with the `ErrorKind`s the
    source constructs (`NotFound`, `Interrupted`) plus `other` for
    terminal-setup failures.
  - Each loop is a function over the (shared) list of pending input events.
    `event::read()` blocking forever when input is exhausted is the
    `blocked` outcome; a Rust panic (from `.expect`) is the `panicked`
    outcome.  Draw calls and event reads are modelled as succeeding; each
    loop iteration performs exactly one draw and consumes exactly one
    event, so the `ticks` counter of the picker loop is simultaneously its
    render count and its consumed-event count.
  - The external `lsblk` invocation is modelled by its raw stdout text
    (`Option String`; `none` means the command could not be spawned, which
    the source turns into a panic via `.expect("Failed to get disks")`).
-/

namespace ArchTUI

/-- Key codes the source dispatches on (`KeyCode::Up/Down/Enter/Esc`, with
`other` standing for every remaining key). -/
inductive EvKey where
  | up
  | down
  | enter
  | esc
  | other
deriving DecidableEq, Repr

/-- A terminal event: a key event, or any non-key event (which the source's
`if let Event::Key(key) = event::read()?` ignores). -/
inductive Ev where
  | key (k : EvKey)
  | nonKey
deriving DecidableEq, Repr

/-- The `io::ErrorKind`s the source constructs, plus `other` for
terminal-setup/teardown failures. -/
inductive ErrKind where
  | notFound
  | interrupted
  | other
deriving DecidableEq, Repr

/-- An `io::Error`: a kind and a message. -/
structure IOErr where
  kind : ErrKind
  msg : String
deriving DecidableEq, Repr

/-- The `KeyCode::Up` arm shared verbatim by both loops:
`if selected_index > 0 { selected_index -= 1 }`. -/
def moveUp (c : Nat) : Nat :=
  if c > 0 then c - 1 else c

/-- The `KeyCode::Down` arm shared verbatim by both loops:
`if selected_index < len - 1 { selected_index += 1 }` (Nat subtraction
matches `usize` here because both call sites have `len ≥ 1`). -/
def moveDown (len c : Nat) : Nat :=
  if c < len - 1 then c + 1 else c

/-- The fixed main-menu action list `vec!["Install Arch Linux", "Exit"]`. -/
def menu_items : List String :=
  ["Install Arch Linux", "Exit"]

/-! ### Device Lister: `get_available_disks` -/

/-- One pass of Rust's `str::split_whitespace` over a char list, with the
not-yet-finished current word accumulated in reverse.  Empty pieces between
consecutive whitespace are never produced, matching Rust. -/
def wsSplitGo : List Char → List Char → List (List Char)
  | [], acc => if acc.isEmpty then [] else [acc.reverse]
  | c :: cs, acc =>
    if c.isWhitespace then
      if acc.isEmpty then wsSplitGo cs []
      else acc.reverse :: wsSplitGo cs []
    else wsSplitGo cs (c :: acc)

/-- Rust's `line.split_whitespace().collect::<Vec<&str>>()` (restricted to
the ASCII whitespace that `lsblk` output contains). -/
def splitWhitespace (s : String) : List String :=
  (wsSplitGo s.data []).map fun w => String.mk w

/-- Strip one trailing carriage return from a line accumulated in reverse,
then restore its order — the `\r\n` handling of Rust's `str::lines`. -/
def stripCRrev (acc : List Char) : List Char :=
  match acc with
  | '\r' :: t => t.reverse
  | _ => acc.reverse

/-- Rust's `str::lines` over a char list: split at `'\n'`, keep interior
empty lines, drop a trailing empty piece, strip a trailing `'\r'` from each
line.  The second argument accumulates the current line in reverse. -/
def linesGo : List Char → List Char → List (List Char)
  | [], acc => if acc.isEmpty then [] else [stripCRrev acc]
  | c :: cs, acc =>
    if c = '\n' then stripCRrev acc :: linesGo cs []
    else linesGo cs (c :: acc)

/-- Rust's `str::lines` on the stdout text. -/
def rustLines (s : String) : List String :=
  (linesGo s.data []).map fun l => String.mk l

/-- The closure inside `get_available_disks`'s `filter_map`: split the line
on whitespace; keep it iff there are exactly two fields and the second is
`"disk"`; map the first field `name` to `"/dev/name"`. -/
def parseLsblkLine (line : String) : Option String :=
  let parts := splitWhitespace line
  if parts.length = 2 ∧ parts.getD 1 "" = "disk" then
    some ("/dev/" ++ parts.getD 0 "")
  else none

/-- `get_available_disks`, parameterised by the raw stdout text of
`lsblk -d -n -o NAME TYPE` (the external collaborator's output). -/
def get_available_disks (stdout : String) : List String :=
  (rustLines stdout).filterMap parseLsblkLine

deriving instance DecidableEq for Except

/-! ### Disk picker: `select_disk` -/

/-- Outcome of the disk-picker: the loop returned (`finished`, carrying the
`io::Result<String>` and the number of completed iterations `ticks` — one
draw and one consumed event each), or the code panicked, or the loop is
blocked waiting for input at cursor `c` after `ticks` iterations. -/
inductive PickRes where
  | finished (res : Except IOErr String) (ticks : Nat)
  | panicked (msg : String)
  | blocked (c : Nat) (ticks : Nat)
deriving DecidableEq, Repr

/-- The render/input loop of `select_disk` (source lines 138–179), over the
cursor `c`, completed-iteration count `t` and the pending events.  `Enter`
returns `Ok(disks[c].clone())` (an out-of-range index would be a Rust
panic), `Esc` returns `Err(Interrupted)`, other keys and non-key events are
ignored. -/
def selectDiskLoop (disks : List String) : Nat → Nat → List Ev → PickRes
  | c, t, [] => .blocked c t
  | c, t, e :: rest =>
    match e with
    | .key .up => selectDiskLoop disks (moveUp c) (t + 1) rest
    | .key .down => selectDiskLoop disks (moveDown disks.length c) (t + 1) rest
    | .key .enter =>
      match disks.get? c with
      | some d => .finished (.ok d) (t + 1)
      | none => .panicked ("index out of bounds")
    | .key .esc => .finished (.error ⟨.interrupted, "Disk selection canceled"⟩) (t + 1)
    | .key .other => selectDiskLoop disks c (t + 1) rest
    | .nonKey => selectDiskLoop disks c (t + 1) rest

/-- `select_disk`: run `get_available_disks` (panicking if `lsblk` could not
be spawned, i.e. `lsblkOut = none`), short-circuit to `Err(NotFound)` on an
empty device list before any rendering (`ticks = 0`), otherwise enter the
render/input loop at cursor 0. -/
def select_disk (lsblkOut : Option String) (events : List Ev) : PickRes :=
  match lsblkOut with
  | none => .panicked ("Failed to get disks")
  | some out =>
    let disks := get_available_disks out
    if disks.isEmpty then .finished (.error ⟨.notFound, "No disks found"⟩) 0
    else selectDiskLoop disks 0 0 events

/-! ### Main menu: `run_app` -/

/-- Outcome of `run_app`: the loop returned (`finished`, carrying the
`io::Result<()>`, the final value of `selected_index` and the unread
events), or a panic propagated out of it, or it is blocked waiting for
input with `selected_index = c`. -/
inductive AppRes where
  | finished (res : Except IOErr Unit) (cursor : Nat) (rest : List Ev)
  | panicked (msg : String)
  | blocked (cursor : Nat)
deriving DecidableEq, Repr

/-- The `run_app` loop (source lines 42–99) over `selected_index = c` and
the pending events.  The `Enter` dispatch mirrors the source's
`match selected_index { 0 => select_disk…, 2 => break, _ => {} }`: on arm
`0` the picker runs on the same event stream (consuming `k` events); an
`Ok` from it is printed and the loop continues with `selected_index`
unchanged, while an `Err` is propagated by `?`, ending the loop.  `Esc`
breaks with `Ok(())`. -/
def runAppLoop (o : Option String) (c : Nat) (evs : List Ev) : AppRes :=
  match evs with
  | [] => .blocked c
  | e :: rest =>
    match e with
    | .key .up => runAppLoop o (moveUp c) rest
    | .key .down => runAppLoop o (moveDown menu_items.length c) rest
    | .key .enter =>
      if c = 0 then
        match select_disk o rest with
        | .finished (.ok _) k => runAppLoop o 0 (rest.drop k)
        | .finished (.error err) k => .finished (.error err) 0 (rest.drop k)
        | .panicked m => .panicked m
        | .blocked _ _ => .blocked 0
      else if c = 2 then .finished (.ok ()) 2 rest
      else runAppLoop o c rest
    | .key .esc => .finished (.ok ()) c rest
    | .key .other => runAppLoop o c rest
    | .nonKey => runAppLoop o c rest
termination_by evs.length
decreasing_by
  all_goals simp [List.length_drop]
  all_goals omega

/-- `run_app` starts its loop at `selected_index = 0`. -/
def run_app (o : Option String) (evs : List Ev) : AppRes :=
  runAppLoop o 0 evs

/-! ### `main`: terminal acquisition/release around `run_app` -/

/-- Environment of one process run: whether each fallible terminal step
succeeds, the `lsblk` stdout (`none` = spawn failure), and the input
events. -/
structure MainEnv where
  enableRawOk : Bool
  enterAltOk : Bool
  newTermOk : Bool
  disableRawOk : Bool
  leaveAltOk : Bool
  showCursorOk : Bool
  lsblkOut : Option String
  events : List Ev
deriving DecidableEq, Repr

/-- Result of `main`: returned `Ok(())`, returned an `io::Error` (non-zero
exit), the process panicked, or it is still blocked on input. -/
inductive MainRes where
  | ok
  | fatal (e : IOErr)
  | panicked (m : String)
  | stuck
deriving DecidableEq, Repr

/-- Observable trace of one run of `main`: its result, how many times raw
mode was enabled/disabled, how many times the alternate screen was
entered/left, and the error printed by `println!("{:?}", err)`, if any. -/
structure MainTrace where
  result : MainRes
  rawOn : Nat
  rawOff : Nat
  altIn : Nat
  altOut : Nat
  printed : Option IOErr
deriving DecidableEq, Repr

/-- `main` (source lines 12–36), step by step: `enable_raw_mode()?`,
`execute!(EnterAlternateScreen)?`, `Terminal::new(..)?`, `run_app`, then
the straight-line restore sequence `disable_raw_mode()?`,
`execute!(LeaveAlternateScreen)?`, `show_cursor()?`, and finally printing a
`run_app` error (if any) and returning `Ok(())`.  A panic inside `run_app`
unwinds past the restore sequence, and a `?` inside it skips the remaining
steps. -/
def mainRun (env : MainEnv) : MainTrace :=
  if env.enableRawOk = false then
    ⟨.fatal ⟨.other, "enable raw mode failed"⟩, 0, 0, 0, 0, none⟩
  else if env.enterAltOk = false then
    ⟨.fatal ⟨.other, "enter alternate screen failed"⟩, 1, 0, 0, 0, none⟩
  else if env.newTermOk = false then
    ⟨.fatal ⟨.other, "terminal backend init failed"⟩, 1, 0, 1, 0, none⟩
  else
    match run_app env.lsblkOut env.events with
    | .panicked m => ⟨.panicked m, 1, 0, 1, 0, none⟩
    | .blocked _ => ⟨.stuck, 1, 0, 1, 0, none⟩
    | .finished res _ _ =>
      if env.disableRawOk = false then
        ⟨.fatal ⟨.other, "disable raw mode failed"⟩, 1, 0, 1, 0, none⟩
      else if env.leaveAltOk = false then
        ⟨.fatal ⟨.other, "leave alternate screen failed"⟩, 1, 1, 1, 0, none⟩
      else if env.showCursorOk = false then
        ⟨.fatal ⟨.other, "show cursor failed"⟩, 1, 1, 1, 1, none⟩
      else
        match res with
        | .ok _ => ⟨.ok, 1, 1, 1, 1, none⟩
        | .error e => ⟨.ok, 1, 1, 1, 1, some e⟩

/-! ### Spec-side fold of Up/Down moves (for the saturation claim) -/

/-- An Up/Down key, the move alphabet of the saturation property. -/
inductive Move where
  | up
  | down
deriving DecidableEq, Repr

/-- Fold a sequence of Up/Down moves with the loops' own step functions
`moveUp` / `moveDown` over a list of length `len`. -/
def applyMoves (len : Nat) : Nat → List Move → Nat
  | c, [] => c
  | c, .up :: ms => applyMoves len (moveUp c) ms
  | c, .down :: ms => applyMoves len (moveDown len c) ms

/-- Inject a move sequence into the event stream. -/
def movesToEvs (ms : List Move) : List Ev :=
  ms.map fun m =>
    match m with
    | .up => Ev.key EvKey.up
    | .down => Ev.key EvKey.down

end ArchTUI

namespace ArchTUI

/-! ### Unfolding lemmas for the well-founded `runAppLoop` -/

theorem runAppLoop_nil (o : Option String) (c : Nat) :
    runAppLoop o c [] = AppRes.blocked c := by
  rw [runAppLoop]

theorem runAppLoop_up (o : Option String) (c : Nat) (rest : List Ev) :
    runAppLoop o c (Ev.key EvKey.up :: rest) = runAppLoop o (moveUp c) rest := by
  rw [runAppLoop]

theorem runAppLoop_down (o : Option String) (c : Nat) (rest : List Ev) :
    runAppLoop o c (Ev.key EvKey.down :: rest) =
      runAppLoop o (moveDown menu_items.length c) rest := by
  rw [runAppLoop]

theorem runAppLoop_enter_zero (o : Option String) (rest : List Ev) :
    runAppLoop o 0 (Ev.key EvKey.enter :: rest) =
      match select_disk o rest with
      | .finished (.ok _) k => runAppLoop o 0 (rest.drop k)
      | .finished (.error err) k => .finished (.error err) 0 (rest.drop k)
      | .panicked m => .panicked m
      | .blocked _ _ => .blocked 0 := by
  rw [runAppLoop]
  simp

theorem runAppLoop_enter_other (o : Option String) (c : Nat) (rest : List Ev)
    (h0 : c ≠ 0) (h2 : c ≠ 2) :
    runAppLoop o c (Ev.key EvKey.enter :: rest) = runAppLoop o c rest := by
  rw [runAppLoop]
  simp [h0, h2]

theorem runAppLoop_esc (o : Option String) (c : Nat) (rest : List Ev) :
    runAppLoop o c (Ev.key EvKey.esc :: rest) = AppRes.finished (Except.ok ()) c rest := by
  rw [runAppLoop]

theorem runAppLoop_otherKey (o : Option String) (c : Nat) (rest : List Ev) :
    runAppLoop o c (Ev.key EvKey.other :: rest) = runAppLoop o c rest := by
  rw [runAppLoop]

theorem runAppLoop_nonKey (o : Option String) (c : Nat) (rest : List Ev) :
    runAppLoop o c (Ev.nonKey :: rest) = runAppLoop o c rest := by
  rw [runAppLoop]

theorem runAppLoop_enter_zero_ok {o : Option String} {rest : List Ev} {d : String} {k : Nat}
    (h : select_disk o rest = PickRes.finished (Except.ok d) k) :
    runAppLoop o 0 (Ev.key EvKey.enter :: rest) = runAppLoop o 0 (rest.drop k) := by
  rw [runAppLoop_enter_zero, h]

theorem runAppLoop_enter_zero_err {o : Option String} {rest : List Ev} {err : IOErr} {k : Nat}
    (h : select_disk o rest = PickRes.finished (Except.error err) k) :
    runAppLoop o 0 (Ev.key EvKey.enter :: rest) =
      AppRes.finished (Except.error err) 0 (rest.drop k) := by
  rw [runAppLoop_enter_zero, h]

theorem runAppLoop_enter_zero_panicked {o : Option String} {rest : List Ev} {m : String}
    (h : select_disk o rest = PickRes.panicked m) :
    runAppLoop o 0 (Ev.key EvKey.enter :: rest) = AppRes.panicked m := by
  rw [runAppLoop_enter_zero, h]

theorem runAppLoop_enter_zero_blocked {o : Option String} {rest : List Ev} {pc pt : Nat}
    (h : select_disk o rest = PickRes.blocked pc pt) :
    runAppLoop o 0 (Ev.key EvKey.enter :: rest) = AppRes.blocked 0 := by
  rw [runAppLoop_enter_zero, h]

/-! ### Saturation of the cursor movement -/

theorem moveUp_lt {n c : Nat} (h : c < n) : moveUp c < n := by
  unfold moveUp
  split <;> omega

theorem moveDown_lt {n c : Nat} (h : c < n) : moveDown n c < n := by
  unfold moveDown
  split <;> omega

theorem applyMoves_lt (n : Nat) (ms : List Move) :
    ∀ c, c < n → applyMoves n c ms < n := by
  induction ms with
  | nil => intro c hc; exact hc
  | cons m ms ih =>
      intro c hc
      cases m with
      | up => exact ih _ (moveUp_lt hc)
      | down => exact ih _ (moveDown_lt hc)

theorem selectDiskLoop_moves (ms : List Move) :
    ∀ (disks : List String) (c t : Nat),
      selectDiskLoop disks c t (movesToEvs ms) =
        PickRes.blocked (applyMoves disks.length c ms) (t + ms.length) := by
  induction ms with
  | nil => intro disks c t; simp [movesToEvs, selectDiskLoop, applyMoves]
  | cons m ms ih =>
      intro disks c t
      cases m with
      | up =>
          simp only [movesToEvs, List.map_cons, selectDiskLoop, applyMoves]
          rw [show (ms.map fun m => match m with
                | Move.up => Ev.key EvKey.up
                | Move.down => Ev.key EvKey.down) = movesToEvs ms from rfl]
          rw [ih disks (moveUp c) (t + 1)]
          simp [applyMoves]
          omega
      | down =>
          simp only [movesToEvs, List.map_cons, selectDiskLoop, applyMoves]
          rw [show (ms.map fun m => match m with
                | Move.up => Ev.key EvKey.up
                | Move.down => Ev.key EvKey.down) = movesToEvs ms from rfl]
          rw [ih disks (moveDown disks.length c) (t + 1)]
          simp [applyMoves]
          omega

theorem runAppLoop_moves (ms : List Move) :
    ∀ (o : Option String) (c : Nat),
      runAppLoop o c (movesToEvs ms) =
        AppRes.blocked (applyMoves menu_items.length c ms) := by
  induction ms with
  | nil => intro o c; simp [movesToEvs, applyMoves, runAppLoop_nil]
  | cons m ms ih =>
      intro o c
      cases m with
      | up =>
          rw [show movesToEvs (Move.up :: ms) = Ev.key EvKey.up :: movesToEvs ms from rfl]
          rw [runAppLoop_up, ih o (moveUp c)]
          rfl
      | down =>
          rw [show movesToEvs (Move.down :: ms) = Ev.key EvKey.down :: movesToEvs ms from rfl]
          rw [runAppLoop_down, ih o (moveDown menu_items.length c)]
          rfl

end ArchTUI

namespace ArchTUI

/-! ### Invariant of the main-menu loop -/

theorem runAppLoop_inv (o : Option String) :
    ∀ (N : Nat) (evs : List Ev), evs.length ≤ N → ∀ c : Nat, c < 2 →
      (∀ c', runAppLoop o c evs = AppRes.blocked c' → c' < 2) ∧
      (∀ res c' rest, runAppLoop o c evs = AppRes.finished res c' rest →
          c' < 2 ∧ (res = Except.ok () → ∃ pre, evs = pre ++ Ev.key EvKey.esc :: rest)) := by
  intro N
  induction N with
  | zero =>
      intro evs hlen c hc
      have hnil : evs = [] := by cases evs <;> simp_all
      subst hnil
      constructor
      · intro c' h
        rw [runAppLoop_nil] at h
        cases h
        exact hc
      · intro res c' rest h
        rw [runAppLoop_nil] at h
        cases h
  | succ N ih =>
      intro evs hlen c hc
      cases evs with
      | nil =>
          constructor
          · intro c' h
            rw [runAppLoop_nil] at h
            cases h
            exact hc
          · intro res c' rest h
            rw [runAppLoop_nil] at h
            cases h
      | cons e rest =>
          have hrest : rest.length ≤ N := by
            simp only [List.length_cons] at hlen
            omega
          cases e with
          | nonKey =>
              obtain ⟨ihb, ihf⟩ := ih rest hrest c hc
              constructor
              · intro c' h
                rw [runAppLoop_nonKey] at h
                exact ihb c' h
              · intro res c' r h
                rw [runAppLoop_nonKey] at h
                obtain ⟨h1, h2⟩ := ihf res c' r h
                refine ⟨h1, fun hok => ?_⟩
                obtain ⟨pre, hpre⟩ := h2 hok
                exact ⟨Ev.nonKey :: pre, by simp [hpre]⟩
          | key k =>
              cases k with
              | up =>
                  obtain ⟨ihb, ihf⟩ := ih rest hrest (moveUp c) (moveUp_lt hc)
                  constructor
                  · intro c' h
                    rw [runAppLoop_up] at h
                    exact ihb c' h
                  · intro res c' r h
                    rw [runAppLoop_up] at h
                    obtain ⟨h1, h2⟩ := ihf res c' r h
                    refine ⟨h1, fun hok => ?_⟩
                    obtain ⟨pre, hpre⟩ := h2 hok
                    exact ⟨Ev.key EvKey.up :: pre, by simp [hpre]⟩
              | down =>
                  have hlen2 : menu_items.length = 2 := rfl
                  have hless : moveDown menu_items.length c < 2 := by
                    rw [hlen2]
                    exact moveDown_lt hc
                  obtain ⟨ihb, ihf⟩ := ih rest hrest (moveDown menu_items.length c) hless
                  constructor
                  · intro c' h
                    rw [runAppLoop_down] at h
                    exact ihb c' h
                  · intro res c' r h
                    rw [runAppLoop_down] at h
                    obtain ⟨h1, h2⟩ := ihf res c' r h
                    refine ⟨h1, fun hok => ?_⟩
                    obtain ⟨pre, hpre⟩ := h2 hok
                    exact ⟨Ev.key EvKey.down :: pre, by simp [hpre]⟩
              | other =>
                  obtain ⟨ihb, ihf⟩ := ih rest hrest c hc
                  constructor
                  · intro c' h
                    rw [runAppLoop_otherKey] at h
                    exact ihb c' h
                  · intro res c' r h
                    rw [runAppLoop_otherKey] at h
                    obtain ⟨h1, h2⟩ := ihf res c' r h
                    refine ⟨h1, fun hok => ?_⟩
                    obtain ⟨pre, hpre⟩ := h2 hok
                    exact ⟨Ev.key EvKey.other :: pre, by simp [hpre]⟩
              | esc =>
                  constructor
                  · intro c' h
                    rw [runAppLoop_esc] at h
                    cases h
                  · intro res c' r h
                    rw [runAppLoop_esc] at h
                    cases h
                    exact ⟨hc, fun _ => ⟨[], rfl⟩⟩
              | enter =>
                  by_cases hc0 : c = 0
                  · subst hc0
                    cases hsd : select_disk o rest with
                    | finished pres pk =>
                        cases pres with
                        | ok d =>
                            have hdrop : (rest.drop pk).length ≤ N := by
                              simp only [List.length_drop]
                              omega
                            obtain ⟨ihb, ihf⟩ := ih (rest.drop pk) hdrop 0 (by omega)
                            constructor
                            · intro c' h
                              rw [runAppLoop_enter_zero_ok hsd] at h
                              exact ihb c' h
                            · intro res c' r h
                              rw [runAppLoop_enter_zero_ok hsd] at h
                              obtain ⟨h1, h2⟩ := ihf res c' r h
                              refine ⟨h1, fun hok => ?_⟩
                              obtain ⟨pre, hpre⟩ := h2 hok
                              refine ⟨Ev.key EvKey.enter :: (rest.take pk ++ pre), ?_⟩
                              have hsplit : rest.take pk ++ rest.drop pk = rest :=
                                List.take_append_drop pk rest
                              calc Ev.key EvKey.enter :: rest
                                  = Ev.key EvKey.enter :: (rest.take pk ++ rest.drop pk) := by
                                    rw [hsplit]
                                _ = Ev.key EvKey.enter ::
                                      (rest.take pk ++ (pre ++ Ev.key EvKey.esc :: r)) := by
                                    rw [hpre]
                                _ = (Ev.key EvKey.enter :: (rest.take pk ++ pre)) ++
                                      Ev.key EvKey.esc :: r := by
                                    simp
                        | error err =>
                            constructor
                            · intro c' h
                              rw [runAppLoop_enter_zero_err hsd] at h
                              cases h
                            · intro res c' r h
                              rw [runAppLoop_enter_zero_err hsd] at h
                              cases h
                              refine ⟨by omega, fun hok => ?_⟩
                              simp at hok
                    | panicked m =>
                        constructor
                        · intro c' h
                          rw [runAppLoop_enter_zero_panicked hsd] at h
                          cases h
                        · intro res c' r h
                          rw [runAppLoop_enter_zero_panicked hsd] at h
                          cases h
                    | blocked pc pt =>
                        constructor
                        · intro c' h
                          rw [runAppLoop_enter_zero_blocked hsd] at h
                          cases h
                          omega
                        · intro res c' r h
                          rw [runAppLoop_enter_zero_blocked hsd] at h
                          cases h
                  · have hc2 : c ≠ 2 := by omega
                    obtain ⟨ihb, ihf⟩ := ih rest hrest c hc
                    constructor
                    · intro c' h
                      rw [runAppLoop_enter_other o c rest hc0 hc2] at h
                      exact ihb c' h
                    · intro res c' r h
                      rw [runAppLoop_enter_other o c rest hc0 hc2] at h
                      obtain ⟨h1, h2⟩ := ihf res c' r h
                      refine ⟨h1, fun hok => ?_⟩
                      obtain ⟨pre, hpre⟩ := h2 hok
                      exact ⟨Ev.key EvKey.enter :: pre, by simp [hpre]⟩

/-! ### The keep-or-skip condition of the lsblk line parser -/

theorem twoFieldsDisk (parts : List String) (d : String) :
    (if parts.length = 2 ∧ parts.getD 1 "" = "disk" then
        some ("/dev/" ++ parts.getD 0 "")
      else none) = some d ↔
      ∃ name, parts = [name, "disk"] ∧ d = "/dev/" ++ name := by
  match parts with
  | [] => simp
  | [a] => simp
  | [a, b] =>
      by_cases hb : b = "disk" <;> simp [hb, List.getD, eq_comm]
  | a :: b :: x :: t => simp

theorem parseLsblkLine_eq_some (line d : String) :
    parseLsblkLine line = some d ↔
      ∃ name, splitWhitespace line = [name, "disk"] ∧ d = "/dev/" ++ name := by
  have := twoFieldsDisk (splitWhitespace line) d
  simpa [parseLsblkLine] using this

end ArchTUI

namespace ArchTUI

/-- C1: for every list length `N ≥ 1` and every finite sequence of Up/Down
moves started at cursor 0, the cursor stays in `[0, N)`; `Up` at 0 and
`Down` at `N-1` are no-ops (saturating, no wraparound).  The last two
conjuncts tie the fold `applyMoves` to the actual loops: feeding the same
moves to the disk-picker loop (over any list of length `N`) and to the
`run_app` loop leaves each blocked on input at exactly that cursor. -/
theorem C1_cursor_saturates (n : Nat) (hn : 1 ≤ n) (ms : List Move) :
    applyMoves n 0 ms < n ∧ moveUp 0 = 0 ∧ moveDown n (n - 1) = n - 1 ∧
    (∀ disks : List String, disks.length = n →
      selectDiskLoop disks 0 0 (movesToEvs ms) =
        PickRes.blocked (applyMoves n 0 ms) ms.length) ∧
    (∀ o : Option String,
      runAppLoop o 0 (movesToEvs ms) =
        AppRes.blocked (applyMoves menu_items.length 0 ms)) := by
  refine ⟨applyMoves_lt n ms 0 (by omega), by simp [moveUp], ?_, ?_, ?_⟩
  · unfold moveDown
    split <;> omega
  · intro disks hd
    have h := selectDiskLoop_moves ms disks 0 0
    rw [hd] at h
    simpa using h
  · intro o
    exact runAppLoop_moves ms o 0

theorem C1_witness :
    applyMoves 3 0 [Move.down, Move.down, Move.down, Move.up] < 3 ∧
      selectDiskLoop ["a", "b", "c"] 0 0
          (movesToEvs [Move.down, Move.down, Move.down, Move.up]) =
        PickRes.blocked 1 4 := by
  have h := C1_cursor_saturates 3 (by omega) [Move.down, Move.down, Move.down, Move.up]
  exact ⟨h.1, h.2.2.2.1 ["a", "b", "c"] (by decide)⟩

/-- C2: with a non-empty device list and any in-bounds cursor `i`, `Enter`
in the disk picker returns `Ok` of exactly the `i`-th device, in the order
the Device Lister produced; and concretely, with lsblk output naming
`sda` and `sdb`, pressing Down then Enter yields `Ok("/dev/sdb")`. -/
theorem C2_enter_selects_ith :
    (∀ (disks : List String) (i t : Nat) (h : i < disks.length) (rest : List Ev),
        selectDiskLoop disks i t (Ev.key EvKey.enter :: rest) =
          PickRes.finished (Except.ok (disks.get ⟨i, h⟩)) (t + 1)) ∧
    select_disk (some ("sda disk\nsdb disk")) [Ev.key EvKey.down, Ev.key EvKey.enter] =
      PickRes.finished (Except.ok ("/dev/sdb")) 2 := by
  constructor
  · intro disks i t h rest
    simp [selectDiskLoop, List.getElem?_eq_getElem h]
  · decide

theorem C2_witness :
    selectDiskLoop ["/dev/sda", "/dev/sdb"] 1 0 [Ev.key EvKey.enter] =
      PickRes.finished (Except.ok ("/dev/sdb")) 1 :=
  C2_enter_selects_ith.1 ["/dev/sda", "/dev/sdb"] 1 0 (by decide) []

/-- C3 counterexample: the claim says every picker outcome (also
cancellation) returns the Menu Controller to Running and its loop
continues.  In the code `select_disk(terminal)?` propagates the picker's
`Err`: pressing Enter (cursor 0) and then Escape inside the picker makes
`run_app` return `Err(Interrupted)` immediately — the trailing Down event
is left unread, so the main-menu loop did not continue. -/
theorem C3_counterexample :
    run_app (some ("sda disk")) [Ev.key EvKey.enter, Ev.key EvKey.esc, Ev.key EvKey.down] =
      AppRes.finished (Except.error ⟨ErrKind.interrupted, "Disk selection canceled"⟩) 0
        [Ev.key EvKey.down] := by
  show runAppLoop _ 0 _ = _
  rw [runAppLoop_enter_zero_err
    (show select_disk (some ("sda disk")) [Ev.key EvKey.esc, Ev.key EvKey.down] =
      PickRes.finished (Except.error ⟨ErrKind.interrupted, "Disk selection canceled"⟩) 1
      from by decide)]
  decide

/-- C3 (amended): only the `Selected` (`Ok`) outcome of the disk-picker
returns the Menu Controller to Running — the loop continues on the
remaining events with its cursor unchanged at 0; a `Cancelled` or
`NotFound` outcome (an `Err`) is propagated by `?` and terminates the
main-menu loop with that error. -/
theorem C3_only_selected_resumes :
    (∀ (o : Option String) (evs : List Ev) (d : String) (k : Nat),
        select_disk o evs = PickRes.finished (Except.ok d) k →
        runAppLoop o 0 (Ev.key EvKey.enter :: evs) = runAppLoop o 0 (evs.drop k)) ∧
    (∀ (o : Option String) (evs : List Ev) (err : IOErr) (k : Nat),
        select_disk o evs = PickRes.finished (Except.error err) k →
        runAppLoop o 0 (Ev.key EvKey.enter :: evs) =
          AppRes.finished (Except.error err) 0 (evs.drop k)) := by
  constructor
  · intro o evs d k h
    exact runAppLoop_enter_zero_ok h
  · intro o evs err k h
    exact runAppLoop_enter_zero_err h

theorem C3_witness :
    runAppLoop (some ("sda disk")) 0 [Ev.key EvKey.enter, Ev.key EvKey.enter] =
      runAppLoop (some ("sda disk")) 0 [] :=
  C3_only_selected_resumes.1 (some ("sda disk")) [Ev.key EvKey.enter] ("/dev/sda") 1 (by decide)

/-- C4 (code bug): pressing Down (cursor on "Exit", index 1) and then Enter
does NOT exit: `run_app`'s Enter dispatch matches `selected_index` against
`0` and `2`, and its `2 => break // Exit` arm is the only exit arm, so
index 1 falls into `_ => {}` and the loop keeps running (here: blocked
waiting for more input with cursor 1).  `o = none` would make any picker
invocation panic, so this also shows the picker is never invoked. -/
theorem C4_enter_on_exit_keeps_running :
    run_app none [Ev.key EvKey.down, Ev.key EvKey.enter] = AppRes.blocked 1 := by
  show runAppLoop none 0 [Ev.key EvKey.down, Ev.key EvKey.enter] = AppRes.blocked 1
  rw [runAppLoop_down]
  rw [show moveDown menu_items.length 0 = 1 from rfl]
  rw [runAppLoop_enter_other none 1 [] (by omega) (by omega), runAppLoop_nil]

/-- C5: `Escape` in the disk picker returns `Err(Interrupted)` ("Cancelled")
at every cursor position and for every device list, and the sub-flow never
mutates the Menu Controller's selection: when the picker (invoked by Enter
at menu cursor 0) returns `Cancelled`, the main-menu cursor reported at
that point is still 0, the value from before the invocation. -/
theorem C5_escape_cancels :
    (∀ (disks : List String) (c t : Nat) (rest : List Ev),
        selectDiskLoop disks c t (Ev.key EvKey.esc :: rest) =
          PickRes.finished (Except.error ⟨ErrKind.interrupted, "Disk selection canceled"⟩)
            (t + 1)) ∧
    (∀ (o : Option String) (evs : List Ev) (k : Nat),
        select_disk o evs =
          PickRes.finished (Except.error ⟨ErrKind.interrupted, "Disk selection canceled"⟩) k →
        runAppLoop o 0 (Ev.key EvKey.enter :: evs) =
          AppRes.finished (Except.error ⟨ErrKind.interrupted, "Disk selection canceled"⟩) 0
            (evs.drop k)) := by
  constructor
  · intro disks c t rest
    simp [selectDiskLoop]
  · intro o evs k h
    exact runAppLoop_enter_zero_err h

theorem C5_witness :
    runAppLoop (some ("sda disk")) 0 [Ev.key EvKey.enter, Ev.key EvKey.up, Ev.key EvKey.esc] =
      AppRes.finished (Except.error ⟨ErrKind.interrupted, "Disk selection canceled"⟩) 0 [] :=
  C5_escape_cancels.2 (some ("sda disk")) [Ev.key EvKey.up, Ev.key EvKey.esc] 2 (by decide)

/-- C6: whenever `get_available_disks` yields an empty device list, the
picker returns `Err(NotFound)` with `ticks = 0` — zero loop iterations, so
zero render calls and zero events consumed, for every pending event
stream. -/
theorem C6_empty_disklist_notfound :
    ∀ (out : String) (events : List Ev),
      get_available_disks out = [] →
      select_disk (some out) events =
        PickRes.finished (Except.error ⟨ErrKind.notFound, "No disks found"⟩) 0 := by
  intro out events h
  simp [select_disk, h]

theorem C6_witness :
    select_disk (some ("")) [Ev.key EvKey.enter] =
      PickRes.finished (Except.error ⟨ErrKind.notFound, "No disks found"⟩) 0 :=
  C6_empty_disklist_notfound ("") [Ev.key EvKey.enter] (by decide)

/-- C7: a line of lsblk output is kept iff it splits on whitespace into
exactly a name and the type tag `"disk"`, and then maps to `"/dev/" ++
name`; any line for which the parser yields `none` is silently dropped,
preserving the order of the remaining lines; concretely, partitions, loop
devices, and malformed lines are skipped while `sda`/`nvme0n1` survive in
order. -/
theorem C7_lsblk_parsing :
    (∀ line d : String,
        parseLsblkLine line = some d ↔
          ∃ name, splitWhitespace line = [name, "disk"] ∧ d = "/dev/" ++ name) ∧
    (∀ (ls1 ls2 : List String) (l : String),
        parseLsblkLine l = none →
        List.filterMap parseLsblkLine (ls1 ++ l :: ls2) =
          List.filterMap parseLsblkLine ls1 ++ List.filterMap parseLsblkLine ls2) ∧
    get_available_disks ("sda   disk\nsda1 part\nloop0 loop\nnvme0n1 disk\ngarbage\nfoo bar baz\n") =
      ["/dev/sda", "/dev/nvme0n1"] := by
  refine ⟨parseLsblkLine_eq_some, ?_, by decide⟩
  intro ls1 ls2 l h
  simp [List.filterMap_append, List.filterMap_cons, h]

theorem C7_witness :
    List.filterMap parseLsblkLine (["sda disk"] ++ ("junk") :: ["sdb disk"]) =
      List.filterMap parseLsblkLine ["sda disk"] ++ List.filterMap parseLsblkLine ["sdb disk"] :=
  C7_lsblk_parsing.2.1 ["sda disk"] ["sdb disk"] ("junk") (by decide)

/-- C8 counterexample: the claim says the terminal is released exactly once
on every exit path, including a failure of the external device query.  But
that failure is `.expect("Failed to get disks")` — a panic that unwinds
past `main`'s straight-line restore code: with `lsblk` unable to spawn,
pressing Enter acquires raw mode and the alternate screen once (`rawOn =
altIn = 1`) and releases neither (`rawOff = altOut = 0`). -/
theorem C8_counterexample :
    mainRun ⟨true, true, true, true, true, true, none, [Ev.key EvKey.enter]⟩ =
      ⟨MainRes.panicked ("Failed to get disks"), 1, 0, 1, 0, none⟩ := by
  have h : run_app none [Ev.key EvKey.enter] = AppRes.panicked ("Failed to get disks") :=
    runAppLoop_enter_zero_panicked (by decide)
  simp [mainRun, h]

/-- C8 (amended): the terminal is acquired exactly once at process start,
and it is released exactly once before process end on every exit path on
which `run_app` itself returns (normal Escape termination or an error
return) and the three restoration steps succeed; a device-query spawn
failure instead panics out of `run_app` and the release never happens. -/
theorem C8_release_once_on_return :
    ∀ (env : MainEnv) (res : Except IOErr Unit) (c : Nat) (rest : List Ev),
      env.enableRawOk = true → env.enterAltOk = true → env.newTermOk = true →
      env.disableRawOk = true → env.leaveAltOk = true → env.showCursorOk = true →
      run_app env.lsblkOut env.events = AppRes.finished res c rest →
      (mainRun env).rawOn = 1 ∧ (mainRun env).rawOff = 1 ∧
        (mainRun env).altIn = 1 ∧ (mainRun env).altOut = 1 := by
  intro env res c rest h1 h2 h3 h4 h5 h6 hr
  cases res with
  | ok u => simp [mainRun, h1, h2, h3, h4, h5, h6, hr]
  | error e => simp [mainRun, h1, h2, h3, h4, h5, h6, hr]

theorem C8_witness :
    (mainRun ⟨true, true, true, true, true, true, some ("sda disk"),
        [Ev.key EvKey.esc]⟩).rawOn = 1 ∧
    (mainRun ⟨true, true, true, true, true, true, some ("sda disk"),
        [Ev.key EvKey.esc]⟩).rawOff = 1 ∧
    (mainRun ⟨true, true, true, true, true, true, some ("sda disk"),
        [Ev.key EvKey.esc]⟩).altIn = 1 ∧
    (mainRun ⟨true, true, true, true, true, true, some ("sda disk"),
        [Ev.key EvKey.esc]⟩).altOut = 1 :=
  C8_release_once_on_return
    ⟨true, true, true, true, true, true, some ("sda disk"), [Ev.key EvKey.esc]⟩
    (Except.ok ()) 0 [] rfl rfl rfl rfl rfl rfl (runAppLoop_esc (some ("sda disk")) 0 [])

/-- C9: starting from cursor 0, `run_app`'s cursor is always < 2 (the menu
has exactly two items), whether the loop is still blocked on input or has
finished — so the `2 => break` Enter arm is unreachable; and every normal
(`Ok`) termination of the loop happens exactly at an Escape event: the
consumed input ends with `Esc` followed by precisely the returned unread
rest.  (Running every prefix of an input stream exhibits, via the
`blocked` cursor, every intermediate cursor value.) -/
theorem C9_exit_arm_unreachable (o : Option String) :
    (∀ (evs : List Ev) (c : Nat), run_app o evs = AppRes.blocked c → c < 2) ∧
    (∀ (evs : List Ev) (res : Except IOErr Unit) (c : Nat) (rest : List Ev),
        run_app o evs = AppRes.finished res c rest → c < 2) ∧
    (∀ (evs : List Ev) (c : Nat) (rest : List Ev),
        run_app o evs = AppRes.finished (Except.ok ()) c rest →
        ∃ pre, evs = pre ++ Ev.key EvKey.esc :: rest) := by
  refine ⟨fun evs c h => ?_, fun evs res c rest h => ?_, fun evs c rest h => ?_⟩
  · exact (runAppLoop_inv o evs.length evs le_rfl 0 (by omega)).1 c h
  · exact ((runAppLoop_inv o evs.length evs le_rfl 0 (by omega)).2 res c rest h).1
  · exact (((runAppLoop_inv o evs.length evs le_rfl 0 (by omega)).2 _ c rest h).2 rfl)

theorem C9_witness :
    (0 < 2) ∧ (∃ pre, [Ev.key EvKey.esc] = pre ++ Ev.key EvKey.esc :: ([] : List Ev)) := by
  have h := C9_exit_arm_unreachable none
  have hra : run_app none [Ev.key EvKey.esc] = AppRes.finished (Except.ok ()) 0 [] :=
    runAppLoop_esc none 0 []
  exact ⟨h.2.1 [Ev.key EvKey.esc] (Except.ok ()) 0 [] hra, h.2.2 [Ev.key EvKey.esc] 0 [] hra⟩

/-- C10: whenever `run_app` returns (with `Ok` or with an error) and the
three terminal-restoration steps succeed, `main` returns `Ok(())` — exit
code 0 — and, in the error case, prints that very error as a diagnostic;
so the exit code does not distinguish a fatal-error run from a normal
Escape termination. -/
theorem C10_errors_exit_zero :
    ∀ (env : MainEnv) (res : Except IOErr Unit) (c : Nat) (rest : List Ev),
      env.enableRawOk = true → env.enterAltOk = true → env.newTermOk = true →
      env.disableRawOk = true → env.leaveAltOk = true → env.showCursorOk = true →
      run_app env.lsblkOut env.events = AppRes.finished res c rest →
      (mainRun env).result = MainRes.ok ∧
      (∀ e : IOErr, res = Except.error e → (mainRun env).printed = some e) := by
  intro env res c rest h1 h2 h3 h4 h5 h6 hr
  refine ⟨?_, ?_⟩
  · cases res with
    | ok u => simp [mainRun, h1, h2, h3, h4, h5, h6, hr]
    | error e => simp [mainRun, h1, h2, h3, h4, h5, h6, hr]
  · intro e he
    subst he
    simp [mainRun, h1, h2, h3, h4, h5, h6, hr]

theorem C10_witness :
    (mainRun ⟨true, true, true, true, true, true, some ("sda disk"),
        [Ev.key EvKey.enter, Ev.key EvKey.esc]⟩).result = MainRes.ok ∧
    (mainRun ⟨true, true, true, true, true, true, some ("sda disk"),
        [Ev.key EvKey.enter, Ev.key EvKey.esc]⟩).printed =
      some ⟨ErrKind.interrupted, "Disk selection canceled"⟩ := by
  have hr : run_app (some ("sda disk")) [Ev.key EvKey.enter, Ev.key EvKey.esc] =
      AppRes.finished (Except.error ⟨ErrKind.interrupted, "Disk selection canceled"⟩) 0 [] := by
    show runAppLoop _ 0 _ = _
    rw [runAppLoop_enter_zero_err
      (show select_disk (some ("sda disk")) [Ev.key EvKey.esc] =
        PickRes.finished (Except.error ⟨ErrKind.interrupted, "Disk selection canceled"⟩) 1
        from by decide)]
    decide
  have h := C10_errors_exit_zero
    ⟨true, true, true, true, true, true, some ("sda disk"),
      [Ev.key EvKey.enter, Ev.key EvKey.esc]⟩
    (Except.error ⟨ErrKind.interrupted, "Disk selection canceled"⟩) 0 []
    rfl rfl rfl rfl rfl rfl hr
  exact ⟨h.1, h.2 _ rfl⟩

end ArchTUI
